import Mathlib

/-!
Verification of the serial-number masking tool (src/main.py).

The development shallowly embeds the program:

* Text is a list of characters; raw file bytes are a list of naturals.
* The random source of the Python global RNG is modelled by an explicit
  stream g : Nat → Fin 36 of character choices together with a counter
  that records how many choices have been consumed so far; random.choice
  over the 36-character alphabet consumes one stream element.
* The regular-expression engine (the external re library) is modelled for
  the pattern subset the repository uses: literal characters, character
  classes with ranges, and bounded greedy repetition written with braces.
  Bounded repetition is expanded to nested sequence/alternative form, and
  the matcher mlens returns the candidate match lengths at the head of the
  input in backtracking preference order (leftmost, greedy), exactly the
  order a backtracking engine such as Python re explores.  re.sub applies
  the leftmost preferred match repeatedly; a zero-width match emits the
  replacement and advances one character, as in Python 3.7 and later.
* Pattern strings the model cannot parse correspond to patterns whose
  compilation fails (re.error in the source).
* File input and output in process_file is modelled by an explicit read
  outcome, detection and decoding functions, and a write-success flag; the
  second component of the result is the content written to the output
  path, none meaning nothing was written.
-/

/-- Model of string.ascii_uppercase + string.digits from the source. -/
def alphaChars : List Char := ("ABCDEFGHIJKLMNOPQRSTUVWXYZ" ++ "0123456789").data

/-- One invocation of random.choice(characters): the stream supplies an
index below 36 and the corresponding alphabet character is returned. -/
def pick (j : Fin 36) : Char := alphaChars.getD j.val 'A'

/-- Model of generate_random_string (src/main.py lines 19-30): draws
consecutive stream elements starting at counter ctr. -/
def generate_random_string (g : Nat → Fin 36) (ctr : Nat) (length : Nat) : List Char :=
  (List.range length).map fun i => pick (g (ctr + i))

/-- Model of mask_serial_number (src/main.py lines 33-46): the replacement
for a match is a fresh random string of the matched text's length. -/
def mask_serial_number (g : Nat → Fin 36) (ctr : Nat) (matched : List Char) : List Char :=
  generate_random_string g ctr matched.length

/-- Compiled regular expressions, covering the pattern subset used by the
repository.  Bounded repetition is represented expanded (see applyRepeat). -/
inductive Regex : Type where
  | epsilon : Regex
  | lit : Char → Regex
  | cls : List Char → Regex
  | seq : Regex → Regex → Regex
  | alt : Regex → Regex → Regex
deriving DecidableEq, Inhabited

/-- Candidate lengths of matches of r at the head of s, in the preference
order of a backtracking engine (greedy, left alternative first).  The
engine's chosen match at this position is the head of this list. -/
def mlens : Regex → List Char → List Nat
  | .epsilon, _ => [0]
  | .lit c, s =>
    match s with
    | [] => []
    | x :: _ => if x = c then [1] else []
  | .cls cs, s =>
    match s with
    | [] => []
    | x :: _ => if cs.contains x then [1] else []
  | .seq a b, s => (mlens a s).flatMap fun n => (mlens b (s.drop n)).map (n + ·)
  | .alt a b, s => mlens a s ++ mlens b s

/-- n sequenced copies of r in front of a tail expression. -/
def seqN (r : Regex) : Nat → Regex → Regex
  | 0, tail => tail
  | k + 1, tail => .seq r (seqN r k tail)

/-- k greedy optional copies of r: the alternative taking one more copy is
preferred over stopping, as in a backtracking engine. -/
def optChain (r : Regex) : Nat → Regex
  | 0 => .epsilon
  | k + 1 => .alt (.seq r (optChain r k)) .epsilon

/-- Greedy bounded repetition r with brace quantifier m,n (m mandatory
copies followed by n - m greedy optional copies). -/
def applyRepeat (r : Regex) (m n : Nat) : Regex :=
  seqN r m (optChain r (n - m))

/-- Characters of an inclusive character range such as A-Z inside a class. -/
def rangeChars (a b : Char) : List Char :=
  (List.range (b.toNat + 1 - a.toNat)).map fun i => Char.ofNat (a.toNat + i)

/-- Parses the items of a character class up to the closing bracket,
returning the listed characters and the remaining input. -/
def parseClassItems : List Char → Option (List Char × List Char)
  | [] => none
  | ']' :: rest => some ([], rest)
  | a :: '-' :: ']' :: rest => some ([a, '-'], rest)
  | a :: '-' :: b :: rest =>
    if a.toNat ≤ b.toNat then
      (parseClassItems rest).map fun pr => (rangeChars a b ++ pr.1, pr.2)
    else none
  | a :: rest => (parseClassItems rest).map fun pr => (a :: pr.1, pr.2)

/-- Numeric value of a decimal digit character. -/
def digitVal (c : Char) : Option Nat :=
  if '0'.toNat ≤ c.toNat ∧ c.toNat ≤ '9'.toNat then some (c.toNat - '0'.toNat) else none

/-- Consumes further digits of a number already started with value acc. -/
def parseDigitsGo : List Char → Nat → Nat × List Char
  | [], acc => (acc, [])
  | c :: rest, acc =>
    match digitVal c with
    | some d => parseDigitsGo rest (acc * 10 + d)
    | none => (acc, c :: rest)

/-- Parses a nonempty run of digits as a decimal number. -/
def parseNumber : List Char → Option (Nat × List Char)
  | [] => none
  | c :: rest => (digitVal c).map fun d => parseDigitsGo rest d

/-- Parses an optional brace quantifier after an atom, yielding the bounds
when present.  A quantifier with minimum above maximum is invalid, as in
the re library. -/
def parseRepeatSuffix : List Char → Option (Option (Nat × Nat) × List Char)
  | '{' :: rest =>
    match parseNumber rest with
    | none => none
    | some (m, after) =>
      match after with
      | '}' :: rest2 => some (some (m, m), rest2)
      | ',' :: after2 =>
        match parseNumber after2 with
        | some (n, '}' :: rest3) => if m ≤ n then some (some (m, n), rest3) else none
        | _ => none
      | _ => none
  | rest => some (none, rest)

/-- Characters accepted as literal atoms; regex metacharacters outside the
modelled subset make the pattern invalid for the model. -/
def isLiteralChar (c : Char) : Bool :=
  !(['.', '^', '$', '*', '+', '?', '(', ')', '|', '[', ']', '{', '}', '\\'].contains c)

/-- Parses a sequence of atoms with optional quantifiers; the fuel bounds
the number of terms and is instantiated with the pattern length. -/
def parseTerms : Nat → List Char → Option Regex
  | _, [] => some .epsilon
  | 0, _ :: _ => none
  | fuel + 1, '[' :: rest =>
    match parseClassItems rest with
    | none => none
    | some (cs, rest2) =>
      match parseRepeatSuffix rest2 with
      | none => none
      | some (quant, rest3) =>
        let atom := Regex.cls cs
        let r := match quant with
          | none => atom
          | some (m, n) => applyRepeat atom m n
        (parseTerms fuel rest3).map (.seq r)
  | fuel + 1, c :: rest =>
    if isLiteralChar c then
      match parseRepeatSuffix rest with
      | none => none
      | some (quant, rest2) =>
        let atom := Regex.lit c
        let r := match quant with
          | none => atom
          | some (m, n) => applyRepeat atom m n
        (parseTerms fuel rest2).map (.seq r)
    else none

/-- Compilation of a pattern string; none models re.error on an invalid
pattern. -/
def compilePattern (p : List Char) : Option Regex :=
  parseTerms p.length p

/-- One pass of re.sub with mask_serial_number as replacer, scanning the
text left to right.  At each position the engine takes the preferred match
when one exists; a positive match is replaced by a fresh random string of
the matched length and scanning resumes after it, a zero-width match emits
the (empty) replacement and scanning resumes after the next character, and
on no match one character is copied.  The fuel is instantiated so that it
never runs out. -/
def subCoreF (r : Regex) (g : Nat → Fin 36) : Nat → List Char → Nat → List Char × Nat
  | 0, s, ctr => (s, ctr)
  | fuel + 1, s, ctr =>
    match (mlens r s).head? with
    | some (k + 1) =>
      let matched := s.take (k + 1)
      let repl := mask_serial_number g ctr matched
      let rest := subCoreF r g fuel (s.drop (k + 1)) (ctr + matched.length)
      (repl ++ rest.1, rest.2)
    | some 0 =>
      match s with
      | [] => (mask_serial_number g ctr [], ctr)
      | c :: t =>
        let rest := subCoreF r g fuel t ctr
        (mask_serial_number g ctr [] ++ c :: rest.1, rest.2)
    | none =>
      match s with
      | [] => (s, ctr)
      | c :: t =>
        let rest := subCoreF r g fuel t ctr
        (c :: rest.1, rest.2)

/-- re.sub(pattern, mask_serial_number, text) for a compiled pattern. -/
def re_sub (r : Regex) (g : Nat → Fin 36) (s : List Char) (ctr : Nat) : List Char × Nat :=
  subCoreF r g (s.length + 1) s ctr

/-- Model of mask_serial_numbers_in_text (src/main.py lines 49-67):
patterns are applied sequentially to the already-masked text; the first
pattern that fails to compile aborts the whole operation with none. -/
def mask_serial_numbers_in_text (g : Nat → Fin 36) :
    List Char → List (List Char) → Nat → Option (List Char) × Nat
  | text, [], ctr => (some text, ctr)
  | text, p :: ps, ctr =>
    match compilePattern p with
    | none => (none, ctr)
    | some r =>
      let res := re_sub r g text ctr
      mask_serial_numbers_in_text g res.1 ps res.2

/-- First default pattern (UUID-like dashed alphanumeric). -/
def dp1 : List Char :=
  "[A-Z0-9]\x7b8\x7d-[A-Z0-9]\x7b4\x7d-[A-Z0-9]\x7b4\x7d-[A-Z0-9]\x7b4\x7d-[A-Z0-9]\x7b12\x7d".data

/-- Second default pattern (SN: followed by ten alphanumerics). -/
def dp2 : List Char := "SN:[A-Z0-9]\x7b10\x7d".data

/-- Third default pattern (bare 15 to 20 alphanumerics). -/
def dp3 : List Char := "[A-Z0-9]\x7b15,20\x7d".data

/-- The three default patterns of src/main.py lines 13-17. -/
def DEFAULT_SERIAL_PATTERNS : List (List Char) := [dp1, dp2, dp3]

/-- Outcome of reading the input file in process_file. -/
inductive ReadOutcome : Type where
  | notFound : ReadOutcome
  | readError : ReadOutcome
  | ok : List Nat → ReadOutcome

/-- Outcome of the write step in process_file.  The source opens the
output path with mode w, which truncates or creates the file, before
writing, and catches any exception of the block.  openFail models the
open call itself failing, leaving the output path untouched; failAfter n
models an exception after n characters were written, leaving the file
created or truncated with only a prefix of the text; success models the
full write completing. -/
inductive WriteOutcome : Type where
  | openFail : WriteOutcome
  | failAfter : Nat → WriteOutcome
  | success : WriteOutcome

/-- Model of process_file (src/main.py lines 70-117).  The read outcome,
the encoding detector, the decoder and the outcome of the write step are
explicit parameters; the result is the returned success flag together
with the content of the output path after the run (none when the path was
never created or modified). -/
def process_file (g : Nat → Fin 36) (readRes : ReadOutcome)
    (detect : List Nat → Option String)
    (decode : String → List Nat → Option (List Char))
    (writeRes : WriteOutcome) (patterns : List (List Char)) : Bool × Option (List Char) :=
  match readRes with
  | .notFound => (false, none)
  | .readError => (false, none)
  | .ok raw =>
    match detect raw with
    | none => (false, none)
    | some encoding =>
      match decode encoding raw with
      | none => (false, none)
      | some text =>
        match (mask_serial_numbers_in_text g text patterns 0).1 with
        | none => (false, none)
        | some masked =>
          match writeRes with
          | .openFail => (false, none)
          | .failAfter n => (false, some (masked.take n))
          | .success => (true, some masked)

/-- Decides that a pattern has no match (not even a zero-width one) at any
position of the text, the end position included. -/
def no_matchB (r : Regex) (s : List Char) : Bool :=
  (List.range (s.length + 1)).all fun i => decide (mlens r (s.drop i) = [])

/-- A pattern compiles and has no match anywhere in the text. -/
def pattern_ok (text p : List Char) : Bool :=
  match compilePattern p with
  | none => false
  | some r => no_matchB r text

/-- Length of the leading run of characters of s drawn from C. -/
def runLen (C : List Char) : List Char → Nat
  | [] => 0
  | c :: t => if c ∈ C then runLen C t + 1 else 0

/-- Every position of s starts a run of characters from C shorter than m. -/
def shortRuns (C : List Char) (m : Nat) (s : List Char) : Prop :=
  ∀ i, runLen C (s.drop i) < m

/-- Decidable check of shortRuns over the finitely many positions. -/
def shortRunsB (C : List Char) (m : Nat) (s : List Char) : Bool :=
  (List.range (s.length + 1)).all fun i => decide (runLen C (s.drop i) < m)

/-- The character class produced by compiling the class part A-Z0-9. -/
def alnumCls : List Char := rangeChars 'A' 'Z' ++ (rangeChars '0' '9' ++ [])

/-- The input text of the default-patterns scenario in the spec. -/
def input7 : List Char := "Device SN:AB12CD34EF shipped".data

/-- A concrete random stream: every choice takes the first alphabet
character. -/
def gZero : Nat → Fin 36 := fun _ => 0

/-- Compiled form of the first default pattern. -/
def r1c : Regex := (compilePattern dp1).get!

/-- Compiled form of the second default pattern. -/
def r2c : Regex := (compilePattern dp2).get!

/-- Compiled form of the third default pattern. -/
def r3c : Regex := (compilePattern dp3).get!

/-- A compiled pattern with a preferred zero-width match on most inputs:
the letter Q repeated zero to three times. -/
def rQ : Regex := (compilePattern "Q\x7b0,3\x7d".data).get!

theorem pick_mem : ∀ j : Fin 36, pick j ∈ alphaChars := by decide

theorem pick_contains_alnum : ∀ j : Fin 36, alnumCls.contains (pick j) = true := by decide

theorem gen_length (g : Nat → Fin 36) (ctr n : Nat) :
    (generate_random_string g ctr n).length = n := by
  simp [generate_random_string]

theorem mem_gen_alpha (g : Nat → Fin 36) (ctr n : Nat) (c : Char)
    (hc : c ∈ generate_random_string g ctr n) : c ∈ alphaChars := by
  simp only [generate_random_string, List.mem_map, List.mem_range] at hc
  obtain ⟨i, _, heq⟩ := hc
  exact heq ▸ pick_mem _

theorem mask_sn_length (g : Nat → Fin 36) (ctr : Nat) (matched : List Char) :
    (mask_serial_number g ctr matched).length = matched.length := by
  simp [mask_serial_number, gen_length]

theorem no_matchB_spec (r : Regex) (s : List Char) (h : no_matchB r s = true) :
    ∀ i, mlens r (s.drop i) = [] := by
  intro i
  have hall := List.all_eq_true.mp h
  by_cases hc : i ≤ s.length
  · exact of_decide_eq_true (hall i (List.mem_range.mpr (by omega)))
  · have hlen := of_decide_eq_true (hall s.length (List.mem_range.mpr (by omega)))
    rw [List.drop_length] at hlen
    rw [List.drop_eq_nil_of_le (by omega)]
    exact hlen

theorem subCoreF_no_match (r : Regex) (g : Nat → Fin 36) :
    ∀ (fuel : Nat) (s : List Char) (ctr : Nat),
      (∀ i, mlens r (s.drop i) = []) → subCoreF r g fuel s ctr = (s, ctr) := by
  intro fuel
  induction fuel with
  | zero => intro s ctr _; rfl
  | succ n ih =>
    intro s ctr h
    have h0 := h 0
    rw [List.drop_zero] at h0
    cases s with
    | nil => simp [subCoreF, h0]
    | cons c t =>
      have ht : ∀ i, mlens r (t.drop i) = [] := by
        intro i
        have h2 := h (i + 1)
        rwa [List.drop_succ_cons] at h2
      simp [subCoreF, h0, ih t ctr ht]

theorem re_sub_no_match (r : Regex) (g : Nat → Fin 36) (s : List Char) (ctr : Nat)
    (h : no_matchB r s = true) : re_sub r g s ctr = (s, ctr) :=
  subCoreF_no_match r g _ s ctr (no_matchB_spec r s h)

theorem subCoreF_length (r : Regex) (g : Nat → Fin 36) :
    ∀ (fuel : Nat) (s : List Char) (ctr : Nat),
      ((subCoreF r g fuel s ctr).1).length = s.length := by
  intro fuel
  induction fuel with
  | zero => intro s ctr; rfl
  | succ n ih =>
    intro s ctr
    cases hm : (mlens r s).head? with
    | none =>
      cases s with
      | nil => simp [subCoreF, hm]
      | cons c t => simp [subCoreF, hm, ih]
    | some k =>
      cases k with
      | zero =>
        cases s with
        | nil => simp [subCoreF, hm, mask_serial_number, generate_random_string]
        | cons c t => simp [subCoreF, hm, mask_serial_number, generate_random_string, ih]
      | succ k2 =>
        simp only [subCoreF, hm]
        simp [mask_sn_length, ih, List.length_take, List.length_drop]
        omega

theorem re_sub_length (r : Regex) (g : Nat → Fin 36) (s : List Char) (ctr : Nat) :
    ((re_sub r g s ctr).1).length = s.length :=
  subCoreF_length r g _ s ctr

theorem mask_cons_valid (g : Nat → Fin 36) (text p : List Char) (ps : List (List Char))
    (ctr : Nat) (r : Regex) (h : compilePattern p = some r) :
    mask_serial_numbers_in_text g text (p :: ps) ctr =
      mask_serial_numbers_in_text g (re_sub r g text ctr).1 ps (re_sub r g text ctr).2 := by
  simp [mask_serial_numbers_in_text, h]

theorem shortRunsB_spec (C : List Char) (m : Nat) (s : List Char)
    (h : shortRunsB C m s = true) : shortRuns C m s := by
  intro i
  have hall := List.all_eq_true.mp h
  by_cases hc : i ≤ s.length
  · exact of_decide_eq_true (hall i (List.mem_range.mpr (by omega)))
  · have hlen := of_decide_eq_true (hall s.length (List.mem_range.mpr (by omega)))
    rw [List.drop_length] at hlen
    rw [List.drop_eq_nil_of_le (by omega)]
    exact hlen

theorem shortRuns_cons (C : List Char) (m : Nat) (c : Char) (t : List Char)
    (h1 : runLen C (c :: t) < m) (h2 : shortRuns C m t) : shortRuns C m (c :: t) := by
  intro i
  cases i with
  | zero => simpa using h1
  | succ j => rw [List.drop_succ_cons]; exact h2 j

theorem runLen_cons_pos (C : List Char) (c : Char) (t : List Char) (h : c ∈ C) :
    runLen C (c :: t) = runLen C t + 1 := by
  simp [runLen, h]

theorem runLen_cons_neg (C : List Char) (c : Char) (t : List Char) (h : c ∉ C) :
    runLen C (c :: t) = 0 := by
  simp [runLen, h]

theorem runLen_append_run (C : List Char) (xs : List Char) (c : Char) (ys : List Char)
    (hxs : ∀ x ∈ xs, x ∈ C) (hc : c ∉ C) :
    runLen C (xs ++ c :: ys) = xs.length := by
  induction xs with
  | nil => simp [runLen_cons_neg C c ys hc]
  | cons x xs ih =>
    have hx := hxs x (by simp)
    rw [List.cons_append, runLen_cons_pos C x _ hx, ih (fun y hy => hxs y (by simp [hy]))]
    simp

theorem shortRuns_append_run (C : List Char) (m : Nat) (xs : List Char) (c : Char)
    (ys : List Char) (hxs : ∀ x ∈ xs, x ∈ C) (hlen : xs.length < m)
    (hc : c ∉ C) (h : shortRuns C m (c :: ys)) :
    shortRuns C m (xs ++ c :: ys) := by
  induction xs with
  | nil => simpa using h
  | cons x xs ih =>
    have hxs2 : ∀ y ∈ xs, y ∈ C := fun y hy => hxs y (by simp [hy])
    have step : shortRuns C m (xs ++ c :: ys) := by
      refine ih hxs2 ?_
      simp only [List.length_cons] at hlen
      omega
    rw [List.cons_append]
    refine shortRuns_cons C m x (xs ++ c :: ys) ?_ step
    have hx := hxs x (by simp)
    rw [runLen_cons_pos C x _ hx, runLen_append_run C xs c ys hxs2 hc]
    simp only [List.length_cons] at hlen
    omega

theorem mlens_seqN_cls_nil (C : List Char) (tail : Regex) :
    ∀ (m : Nat) (s : List Char), runLen C s < m → mlens (seqN (.cls C) m tail) s = [] := by
  intro m
  induction m with
  | zero => intro s h; omega
  | succ k ih =>
    intro s h
    cases s with
    | nil => simp [seqN, mlens]
    | cons c t =>
      by_cases hc : c ∈ C
      · have ht : runLen C t < k := by
          rw [runLen_cons_pos C c t hc] at h
          omega
        simp [seqN, mlens, hc, ih t ht]
      · simp [seqN, mlens, hc]

theorem mlens_seq_eps_nil (a : Regex) (s : List Char) (h : mlens a s = []) :
    mlens (.seq a .epsilon) s = [] := by
  simp [mlens, h]

theorem r3c_shape : r3c = .seq (seqN (.cls alnumCls) 15 (optChain (.cls alnumCls) 5)) .epsilon := by
  decide

theorem re_sub_r3c_id (g : Nat → Fin 36) (tok : List Char)
    (htok : ∀ x ∈ tok, x ∈ alnumCls) (hlen : tok.length = 13) (ctr : Nat) :
    re_sub r3c g ("Device ".data ++ tok ++ " shipped".data) ctr =
      ("Device ".data ++ tok ++ " shipped".data, ctr) := by
  apply subCoreF_no_match
  have hs : shortRuns alnumCls 15
      ('D' :: 'e' :: 'v' :: 'i' :: 'c' :: 'e' :: ' ' :: (tok ++ (' ' :: "shipped".data))) := by
    refine shortRuns_cons _ _ _ _ ?_ (shortRuns_cons _ _ _ _ ?_ (shortRuns_cons _ _ _ _ ?_
      (shortRuns_cons _ _ _ _ ?_ (shortRuns_cons _ _ _ _ ?_ (shortRuns_cons _ _ _ _ ?_
      (shortRuns_cons _ _ _ _ ?_ ?_))))))
    · rw [runLen_cons_pos _ _ _ (by decide), runLen_cons_neg _ _ _ (by decide)]
      omega
    · rw [runLen_cons_neg _ _ _ (by decide)]; omega
    · rw [runLen_cons_neg _ _ _ (by decide)]; omega
    · rw [runLen_cons_neg _ _ _ (by decide)]; omega
    · rw [runLen_cons_neg _ _ _ (by decide)]; omega
    · rw [runLen_cons_neg _ _ _ (by decide)]; omega
    · rw [runLen_cons_neg _ _ _ (by decide)]; omega
    · have hsp : shortRuns alnumCls 15 (' ' :: "shipped".data) :=
        shortRunsB_spec _ _ _ (by decide)
      exact shortRuns_append_run alnumCls 15 tok ' ' "shipped".data htok (by omega)
        (by decide) hsp
  intro i
  rw [r3c_shape]
  exact mlens_seq_eps_nil _ _ (mlens_seqN_cls_nil alnumCls _ 15 _ (hs i))

theorem re_sub_r1c_input7 (g : Nat → Fin 36) : re_sub r1c g input7 0 = (input7, 0) := rfl

theorem re_sub_r2c_input7 (g : Nat → Fin 36) :
    re_sub r2c g input7 0 =
      ("Device ".data ++ generate_random_string g 0 13 ++ " shipped".data, 13) := rfl

theorem pick_mem_alnum : ∀ j : Fin 36, pick j ∈ alnumCls := by decide

theorem mem_gen_alnum (g : Nat → Fin 36) (ctr n : Nat) (c : Char)
    (hc : c ∈ generate_random_string g ctr n) : c ∈ alnumCls := by
  simp only [generate_random_string, List.mem_map, List.mem_range] at hc
  obtain ⟨i, _, heq⟩ := hc
  exact heq ▸ pick_mem_alnum _

theorem gen_all_alpha (g : Nat → Fin 36) (ctr n : Nat) :
    (generate_random_string g ctr n).all alphaChars.contains = true := by
  rw [List.all_eq_true]
  intro c hc
  exact List.elem_eq_true_of_mem (mem_gen_alpha g ctr n c hc)

/-- C1: for every match replaced by the masking engine, the replacement has
exactly the length of the matched text: mask_serial_number applied to any
matched string produces a string of the same length. -/
theorem claim_c1_replacement_length (g : Nat → Fin 36) (ctr : Nat) (matched : List Char) :
    (mask_serial_number g ctr matched).length = matched.length :=
  mask_sn_length g ctr matched

/-- C2: the replacement alphabet has exactly 36 characters, and every
character of every generated replacement string lies in it (uppercase
letters and decimal digits). -/
theorem claim_c2_alphabet :
    alphaChars.length = 36 ∧
    ∀ (g : Nat → Fin 36) (ctr n : Nat) (c : Char),
      c ∈ generate_random_string g ctr n → c ∈ alphaChars :=
  ⟨by decide, fun g ctr n c hc => mem_gen_alpha g ctr n c hc⟩

theorem claim_c2_witness :
    'A' ∈ generate_random_string gZero 0 3 ∧ 'A' ∈ alphaChars :=
  ⟨by decide, claim_c2_alphabet.2 gZero 0 3 'A' (by decide)⟩

/-- C3: if any pattern of the list fails to compile, the whole masking
operation returns the failure sentinel none, for every text and counter;
the text already masked by earlier valid patterns is abandoned. -/
theorem claim_c3_invalid_pattern (g : Nat → Fin 36) (text : List Char)
    (ps : List (List Char)) (ctr : Nat) (p : List Char)
    (hp : p ∈ ps) (hc : compilePattern p = none) :
    (mask_serial_numbers_in_text g text ps ctr).1 = none := by
  revert hp
  induction ps generalizing text ctr with
  | nil => intro hp; cases hp
  | cons q qs ih =>
    intro hp
    cases hq : compilePattern q with
    | none => simp [mask_serial_numbers_in_text, hq]
    | some r =>
      rcases List.mem_cons.mp hp with rfl | hp2
      · rw [hq] at hc; cases hc
      · simp only [mask_serial_numbers_in_text, hq]
        exact ih _ _ hp2

theorem claim_c3_witness :
    "[".data ∈ ["ab".data, "[".data] ∧ compilePattern "[".data = none ∧
    (mask_serial_numbers_in_text gZero "hello ab".data ["ab".data, "[".data] 0).1 = none :=
  ⟨by decide, by decide,
    claim_c3_invalid_pattern gZero "hello ab".data ["ab".data, "[".data] 0 "[".data
      (by decide) (by decide)⟩

/-- C4: patterns are applied strictly sequentially: masking with the list
p1 followed by rest equals first masking with p1 alone and then masking
the resulting text with rest, the random counter carried over, whenever p1
compiles. -/
theorem claim_c4_sequential (g : Nat → Fin 36) (text p1 : List Char)
    (rest : List (List Char)) (ctr : Nat) (r : Regex)
    (h : compilePattern p1 = some r) :
    ∃ t2 c2, mask_serial_numbers_in_text g text [p1] ctr = (some t2, c2) ∧
      mask_serial_numbers_in_text g text (p1 :: rest) ctr =
        mask_serial_numbers_in_text g t2 rest c2 := by
  refine ⟨(re_sub r g text ctr).1, (re_sub r g text ctr).2, ?_, ?_⟩
  · simp [mask_serial_numbers_in_text, h]
  · simp [mask_serial_numbers_in_text, h]

theorem claim_c4_witness :
    compilePattern "A".data = some (Regex.seq (Regex.lit 'A') Regex.epsilon) ∧
    ∃ t2 c2, mask_serial_numbers_in_text gZero "AXA".data ["A".data] 0 = (some t2, c2) ∧
      mask_serial_numbers_in_text gZero "AXA".data ("A".data :: ["X".data]) 0 =
        mask_serial_numbers_in_text gZero t2 ["X".data] c2 :=
  ⟨rfl, claim_c4_sequential gZero "AXA".data "A".data ["X".data] 0
    (Regex.seq (Regex.lit 'A') Regex.epsilon) rfl⟩

/-- C5 (counterexample): a run in which reading, detection, decoding and
masking all succeed but the write fails partway returns failure while the
output path holds a proper prefix of the masked text, so it is false that
every failing run of process_file writes nothing, and the run wrote
neither nothing nor the full masked text. -/
theorem claim_c5_counterexample :
    ¬ ((process_file gZero (ReadOutcome.ok [65]) (fun _ => some "ascii")
          (fun _ _ => some "hello".data) (WriteOutcome.failAfter 2) []).2 = none ∨
        process_file gZero (ReadOutcome.ok [65]) (fun _ => some "ascii")
          (fun _ _ => some "hello".data) (WriteOutcome.failAfter 2) [] =
          (true, some "hello".data)) := by
  decide

/-- C5 (amended): every run of process_file either fails with nothing
written — which covers every failure before the write step: missing
input, read error, undetected encoding, decode error, masking failure,
and also a failing open of the output — or reaches the write step with
the full masked text, and then a completed write reports success with the
full text written while a write failing after n characters reports
failure with the length-n prefix of the masked text left in the output
file. -/
theorem claim_c5_no_partial_amended (g : Nat → Fin 36) (readRes : ReadOutcome)
    (detect : List Nat → Option String) (decode : String → List Nat → Option (List Char))
    (writeRes : WriteOutcome) (ps : List (List Char)) :
    process_file g readRes detect decode writeRes ps = (false, none) ∨
    ∃ raw enc text masked, readRes = ReadOutcome.ok raw ∧ detect raw = some enc ∧
      decode enc raw = some text ∧
      (mask_serial_numbers_in_text g text ps 0).1 = some masked ∧
      ((writeRes = WriteOutcome.success ∧
          process_file g readRes detect decode writeRes ps = (true, some masked)) ∨
        ∃ n, writeRes = WriteOutcome.failAfter n ∧
          process_file g readRes detect decode writeRes ps = (false, some (masked.take n))) := by
  cases readRes with
  | notFound => exact Or.inl rfl
  | readError => exact Or.inl rfl
  | ok raw =>
    cases hd : detect raw with
    | none => exact Or.inl (by simp [process_file, hd])
    | some enc =>
      cases hdec : decode enc raw with
      | none => exact Or.inl (by simp [process_file, hd, hdec])
      | some text =>
        cases hm : (mask_serial_numbers_in_text g text ps 0).1 with
        | none => exact Or.inl (by simp [process_file, hd, hdec, hm])
        | some masked =>
          cases writeRes with
          | openFail => exact Or.inl (by simp [process_file, hd, hdec, hm])
          | failAfter n =>
            exact Or.inr ⟨raw, enc, text, masked, rfl, hd, hdec, hm,
              Or.inr ⟨n, rfl, by simp [process_file, hd, hdec, hm]⟩⟩
          | success =>
            exact Or.inr ⟨raw, enc, text, masked, rfl, hd, hdec, hm,
              Or.inl ⟨rfl, by simp [process_file, hd, hdec, hm]⟩⟩

/-- C6: a text with no match of any pattern of the list (all of which
compile) passes through masking unchanged, with the random counter
untouched. -/
theorem claim_c6_no_match_unchanged (g : Nat → Fin 36) (text : List Char)
    (ps : List (List Char)) (ctr : Nat) (hall : ps.all (pattern_ok text) = true) :
    mask_serial_numbers_in_text g text ps ctr = (some text, ctr) := by
  revert hall
  induction ps generalizing ctr with
  | nil => intro _; rfl
  | cons p qs ih =>
    intro hall
    rw [List.all_cons, Bool.and_eq_true] at hall
    obtain ⟨h1, h2⟩ := hall
    cases hc : compilePattern p with
    | none =>
      simp only [pattern_ok, hc] at h1
      exact absurd h1 (by decide)
    | some r =>
      simp only [pattern_ok, hc] at h1
      have hsub : re_sub r g text ctr = (text, ctr) := re_sub_no_match r g text ctr h1
      simp only [mask_serial_numbers_in_text, hc]
      rw [hsub]
      exact ih ctr h2

theorem claim_c6_witness :
    DEFAULT_SERIAL_PATTERNS.all (pattern_ok "hello world".data) = true ∧
    mask_serial_numbers_in_text gZero "hello world".data DEFAULT_SERIAL_PATTERNS 0 =
      (some "hello world".data, 0) :=
  ⟨by decide,
    claim_c6_no_match_unchanged gZero "hello world".data DEFAULT_SERIAL_PATTERNS 0 (by decide)⟩

/-- C9: whenever masking succeeds, the output text has exactly the same
length as the input text. -/
theorem claim_c9_whole_text_length (g : Nat → Fin 36) (text : List Char)
    (ps : List (List Char)) (ctr : Nat) (out : List Char)
    (h : (mask_serial_numbers_in_text g text ps ctr).1 = some out) :
    out.length = text.length := by
  revert h
  induction ps generalizing text ctr with
  | nil =>
    intro h
    simp only [mask_serial_numbers_in_text, Option.some.injEq] at h
    rw [← h]
  | cons p qs ih =>
    intro h
    cases hc : compilePattern p with
    | none => simp [mask_serial_numbers_in_text, hc] at h
    | some r =>
      simp only [mask_serial_numbers_in_text, hc] at h
      rw [ih _ _ h, re_sub_length]

theorem claim_c9_witness :
    (mask_serial_numbers_in_text gZero input7 DEFAULT_SERIAL_PATTERNS 0).1 =
      some "Device AAAAAAAAAAAAA shipped".data ∧
    ("Device AAAAAAAAAAAAA shipped".data).length = input7.length :=
  ⟨by decide,
    claim_c9_whole_text_length gZero input7 DEFAULT_SERIAL_PATTERNS 0
      "Device AAAAAAAAAAAAA shipped".data (by decide)⟩

/-- C10: generate_random_string of length zero is the empty string, a
zero-width match is replaced by that empty string so the character at the
match position is preserved and scanning continues after it, and masking
with a compiled pattern always succeeds (returns a text, never the failure
sentinel). -/
theorem claim_c10_zero_width :
    (∀ (g : Nat → Fin 36) (ctr : Nat), generate_random_string g ctr 0 = []) ∧
    (∀ (g : Nat → Fin 36) (r : Regex) (c : Char) (t : List Char) (fuel ctr : Nat),
      (mlens r (c :: t)).head? = some 0 →
      subCoreF r g (fuel + 1) (c :: t) ctr =
        (c :: (subCoreF r g fuel t ctr).1, (subCoreF r g fuel t ctr).2)) ∧
    (∀ (g : Nat → Fin 36) (text p : List Char) (r : Regex) (ctr : Nat),
      compilePattern p = some r →
      (mask_serial_numbers_in_text g text [p] ctr).1 = some (re_sub r g text ctr).1) := by
  refine ⟨fun g ctr => rfl, ?_, ?_⟩
  · intro g r c t fuel ctr h
    simp only [subCoreF, h]
    simp [mask_serial_number, generate_random_string]
  · intro g text p r ctr h
    simp [mask_serial_numbers_in_text, h]

theorem claim_c10_witness :
    generate_random_string gZero 5 0 = [] ∧
    subCoreF rQ gZero 3 ('a' :: ['b']) 7 =
      ('a' :: (subCoreF rQ gZero 2 ['b'] 7).1, (subCoreF rQ gZero 2 ['b'] 7).2) ∧
    (mask_serial_numbers_in_text gZero "ab".data ["Q\x7b0,3\x7d".data] 4).1 =
      some (re_sub rQ gZero "ab".data 4).1 :=
  ⟨claim_c10_zero_width.1 gZero 5,
    claim_c10_zero_width.2.1 gZero rQ 'a' ['b'] 2 7 (by decide),
    claim_c10_zero_width.2.2 gZero "ab".data "Q\x7b0,3\x7d".data rQ 4 rfl⟩

/-- C8: if encoding detection yields no usable label, process_file fails
and writes nothing, independently of the decoder, the patterns and the
writability of the output, so no fallback encoding is ever used. -/
theorem claim_c8_undetected (g : Nat → Fin 36) (raw : List Nat)
    (detect : List Nat → Option String) (decode : String → List Nat → Option (List Char))
    (writeRes : WriteOutcome) (ps : List (List Char)) (h : detect raw = none) :
    process_file g (ReadOutcome.ok raw) detect decode writeRes ps = (false, none) := by
  simp [process_file, h]

theorem claim_c8_witness :
    (fun _ : List Nat => (none : Option String)) [1, 2, 3] = none ∧
    process_file gZero (ReadOutcome.ok [1, 2, 3]) (fun _ => none)
      (fun _ _ => some "x".data) WriteOutcome.success [] = (false, none) :=
  ⟨rfl, claim_c8_undetected gZero [1, 2, 3] (fun _ => none)
    (fun _ _ => some "x".data) WriteOutcome.success [] rfl⟩

/-- C7 (amended): for the scenario input masked with the three default
patterns, every possible output is "Device " followed by a random token
over the 36-character alphabet followed by " shipped", where the token has
13 characters — the length of the full match SN:AB12CD34EF of the second
default pattern (the three literal characters SN: plus ten alphanumerics),
not 12 as the claim states. -/
theorem claim_c7_scenario_amended (g : Nat → Fin 36) :
    ∃ tok : List Char, tok.length = 13 ∧ tok.all alphaChars.contains = true ∧
      (mask_serial_numbers_in_text g input7 DEFAULT_SERIAL_PATTERNS 0).1 =
        some ("Device ".data ++ tok ++ " shipped".data) := by
  refine ⟨generate_random_string g 0 13, gen_length g 0 13, gen_all_alpha g 0 13, ?_⟩
  have step1 : mask_serial_numbers_in_text g input7 DEFAULT_SERIAL_PATTERNS 0 =
      mask_serial_numbers_in_text g input7 [dp2, dp3] 0 := by
    show mask_serial_numbers_in_text g input7 (dp1 :: [dp2, dp3]) 0 = _
    rw [mask_cons_valid g input7 dp1 [dp2, dp3] 0 r1c rfl, re_sub_r1c_input7]
  have step2 : mask_serial_numbers_in_text g input7 [dp2, dp3] 0 =
      mask_serial_numbers_in_text g
        ("Device ".data ++ generate_random_string g 0 13 ++ " shipped".data) [dp3] 13 := by
    rw [mask_cons_valid g input7 dp2 [dp3] 0 r2c rfl, re_sub_r2c_input7]
  have step3 : mask_serial_numbers_in_text g
      ("Device ".data ++ generate_random_string g 0 13 ++ " shipped".data) [dp3] 13 =
      (some ("Device ".data ++ generate_random_string g 0 13 ++ " shipped".data), 13) := by
    rw [mask_cons_valid g _ dp3 [] 13 r3c rfl,
      re_sub_r3c_id g (generate_random_string g 0 13)
        (fun x hx => mem_gen_alnum g 0 13 x hx) (gen_length g 0 13) 13]
    rfl
  rw [step1, step2, step3]

/-- C7 (counterexample): at the all-zero random stream the masked output
of the scenario input is a 28-character text, so it is not of the claimed
form "Device " plus a 12-character token plus " shipped", which would have
27 characters. -/
theorem claim_c7_counterexample :
    ¬ ∃ tok : List Char, tok.length = 12 ∧
      (mask_serial_numbers_in_text gZero input7 DEFAULT_SERIAL_PATTERNS 0).1 =
        some ("Device ".data ++ tok ++ " shipped".data) := by
  rintro ⟨tok, hlen, heq⟩
  have hout : (mask_serial_numbers_in_text gZero input7 DEFAULT_SERIAL_PATTERNS 0).1 =
      some "Device AAAAAAAAAAAAA shipped".data := by decide
  rw [hout] at heq
  have h1 := congrArg List.length (Option.some.inj heq)
  rw [List.length_append, List.length_append, hlen] at h1
  exact absurd h1 (by decide)
